import Mathlib

/-!
Verification of the layout/viewport engine of `ratatui-binary-data-widget`.

The repository holds two historical snapshots of the engine:
* `src/lib.rs` — a self-contained snapshot: `RenderPositions`,
  `BinaryDataWidgetState` (`select`, key navigation, `scroll_up`/`scroll_down`
  without clamping) and the `StatefulWidget::render` reconciliation;
* `src/render_positions.rs` + `src/state.rs` — the module snapshot:
  `RenderPositions` (identical algorithm, plus a `biggest_address` field) and
  `State` (`select_address` with clamping, bool-returning scrolling that clamps
  `scroll_down` against the last render's biggest address).

Machine integers are modelled as `Nat` together with explicit saturation at the
type's maximum (`u16` saturates at 65535, `usize` at `2 ^ 64 - 1`); Rust's
`saturating_sub` on unsigned integers coincides with truncated `Nat`
subtraction.  `Rect` mirrors `ratatui::layout::Rect` (four `u16` fields; the
library does not restrict `x + width`, so theorems that need `u16`-typedness
carry explicit `≤ 65535` hypotheses).
-/

/-- Maximum value of `u16`. -/
def U16MAX : Nat := 65535

/-- Maximum value of `usize` (64-bit platform), `2 ^ 64 - 1`. -/
def USIZEMAX : Nat := 18446744073709551615

/-- Result of a `u16` saturating addition or multiplication. -/
def sat16 (n : Nat) : Nat := min n U16MAX

/-- Result of a `usize` saturating addition or multiplication. -/
def satUsize (n : Nat) : Nat := min n USIZEMAX

/-- `ratatui::layout::Rect`: `x`, `y`, `width`, `height` are `u16`. -/
structure Rect where
  x : Nat
  y : Nat
  width : Nat
  height : Nat
deriving DecidableEq, Repr

/-- `Rect::top()` is `self.y` for the inner areas used here. -/
def Rect.top (r : Rect) : Nat := r.y

/-- Address-width model for the source's
`(biggest_address as f32).log(16.0).ceil() as u16`: the exact real-valued
`⌈log₁₆ biggest⌉`, written with explicit fuel (64 halving steps cover every
`usize`) so that the kernel can evaluate it.  For `biggest = 0` the float
path is `ceil (-inf)` cast to `0`, which the model matches exactly.  The
idealization is faithful to the program only where the f32 computation is
determined independently of the library's rounding: at `biggest = 0` and for
`biggest ≤ 255`, where the cast to f32 is exact, `log(16, 16)` divides a
value by itself, and every other base-16 logarithm in range is far from an
integer.  Past `2 ^ 24` the cast alone is lossy (`16 ^ 7` and `16 ^ 7 + 16`
become the same float), so near powers of 16 the program can return less
than this model; all theorems except the address-width claim use the value
only parametrically, and every concrete geometry they evaluate lies in the
faithful range. -/
def clog16Aux : Nat → Nat → Nat
  | 0, _ => 0
  | fuel + 1, b => if b ≤ 1 then 0 else clog16Aux fuel ((b + 15) / 16) + 1

/-- Ceiling base-16 logarithm, `Nat.clog 16` in executable form. -/
def clog16 (b : Nat) : Nat := clog16Aux 64 b

/-- The doubling loop of `RenderPositions::new`: starting from
`pairs_per_row = 1`, keep doubling (`u16` saturating multiplication) while the
doubled value does not exceed `pairs_per_row_max`.  The Rust `loop` runs at
most 16 iterations for any reachable `u16` bound, which the fuel makes
explicit. -/
def pairsLoopAux : Nat → Nat → Nat → Nat
  | 0, _, pairs_per_row => pairs_per_row
  | fuel + 1, pairs_per_row_max, pairs_per_row =>
    if sat16 (pairs_per_row * 2) ≤ pairs_per_row_max then
      pairsLoopAux fuel pairs_per_row_max (sat16 (pairs_per_row * 2))
    else pairs_per_row

/-- `pairs_per_row`: largest power of two reached by doubling from 1 while
staying `≤ pairs_per_row_max`. -/
def pairs_per_row_of (pairs_per_row_max : Nat) : Nat :=
  pairsLoopAux 17 pairs_per_row_max 1

/-- `RenderPositions` (from `src/render_positions.rs`; the `src/lib.rs`
snapshot is the same minus the `biggest_address` field). -/
structure RenderPositions where
  inner_area : Rect
  biggest_address : Nat
  address_width : Nat
  per_row : Nat
  available_data_lines : Nat
  offset_x_hex : Nat
  offset_x_char : Nat
deriving DecidableEq, Repr

/-- `RenderPositions::new(inner_area, data_length)`.  Constants from the
source: `TWO_ADDRESSES_TAKE = 4 + 2 + 1 = 7`, `CHAR_OFFSET_PER_TWO = 4 + 1 = 5`.
`div_ceil` is `(a + b - 1) / b`. -/
def RenderPositions.new (inner_area : Rect) (data_length : Nat) :
    Option RenderPositions :=
  if inner_area.width < 9 ∨ inner_area.height < 1 ∨ data_length = 0 then none
  else
    let biggest_address := data_length - 1
    let address_width := clog16 biggest_address
    let data_width := inner_area.width - 2 - address_width
    let pairs_per_row_max := data_width / 7
    if pairs_per_row_max < 2 then none
    else
      let pairs_per_row := pairs_per_row_of pairs_per_row_max
      let per_row := sat16 (pairs_per_row * 2)
      let available_data_lines := (data_length + per_row - 1) / per_row
      let offset_x_hex := sat16 (sat16 (inner_area.x + address_width) + 2)
      let offset_x_char := sat16 (offset_x_hex + sat16 (pairs_per_row * 5))
      some ⟨inner_area, biggest_address, address_width, per_row,
            available_data_lines, offset_x_hex, offset_x_char⟩

/-- `RenderPositions::x_hex(index_on_row)`. -/
def RenderPositions.x_hex (p : RenderPositions) (index_on_row : Nat) : Nat :=
  let pair_index := index_on_row / 2
  sat16 (sat16 (p.offset_x_hex + sat16 (index_on_row * 2)) + pair_index)

/-- `RenderPositions::x_char(index_on_row)`. -/
def RenderPositions.x_char (p : RenderPositions) (index_on_row : Nat) : Nat :=
  sat16 (p.offset_x_char + index_on_row)

/-- `RenderPositions::clicked_address(offset_address, column, row)`. -/
def RenderPositions.clicked_address (p : RenderPositions)
    (offset_address column row : Nat) : Nat :=
  let row_offset := row - p.inner_area.top
  let offset_address :=
    satUsize (offset_address + satUsize (row_offset * p.per_row))
  if column ≤ p.offset_x_hex then offset_address
  else if column < p.offset_x_char - 1 then
    let diff := column - p.offset_x_hex
    let index := (diff - diff / 5) / 2
    satUsize (offset_address + index)
  else
    let diff := column - p.offset_x_char
    let index := min diff (p.per_row - 1)
    satUsize (offset_address + index)

/-- `State` (from `src/state.rs`). -/
structure State where
  ensure_selected_in_view_on_next_render : Bool
  last_render_positions : Option RenderPositions
  offset_address : Nat
  selected_address : Option Nat
deriving DecidableEq, Repr

/-- `State::new()`. -/
def State.new : State := ⟨false, none, 0, none⟩

/-- `State::last_per_row()`: bytes per row of the last render, default 8. -/
def State.last_per_row (s : State) : Nat :=
  match s.last_render_positions with
  | some positions => positions.per_row
  | none => 8

/-- `State::scroll_up(lines)`: returns the updated state together with the
`bool` result `before != self.offset_address`. -/
def State.scroll_up (s : State) (lines : Nat) : State × Bool :=
  let before := s.offset_address
  let after := before - satUsize (lines * s.last_per_row)
  ({ s with offset_address := after }, before != after)

/-- The `last_biggest_address` local of `State::scroll_down`:
`self.last_render_positions.map_or(usize::MAX, |positions| positions.biggest_address)`. -/
def State.last_biggest_address (s : State) : Nat :=
  match s.last_render_positions with
  | some positions => positions.biggest_address
  | none => USIZEMAX

/-- `State::scroll_down(lines)`: saturating add of `lines * per_row`, clamped
to the last render's `biggest_address` (`usize::MAX` if none); returns the
updated state together with `before != self.offset_address`. -/
def State.scroll_down (s : State) (lines : Nat) : State × Bool :=
  let before := s.offset_address
  let after :=
    min (satUsize (before + satUsize (lines * s.last_per_row)))
      s.last_biggest_address
  ({ s with offset_address := after }, before != after)

/-- `State::clicked_address(column, row)` (the `?` operator on the stored
`Option<RenderPositions>`). -/
def State.clicked_address (s : State) (column row : Nat) : Option Nat :=
  match s.last_render_positions with
  | none => none
  | some positions =>
    some (positions.clicked_address s.offset_address column row)

/-- `BinaryDataWidgetState` (from `src/lib.rs`). -/
structure BinaryDataWidgetState where
  ensure_selected_in_view_on_next_render : Bool
  last_render_positions : Option RenderPositions
  offset_address : Nat
  selected_address : Option Nat
deriving DecidableEq, Repr

/-- `BinaryDataWidgetState::new()`. -/
def BinaryDataWidgetState.new : BinaryDataWidgetState := ⟨false, none, 0, none⟩

/-- `BinaryDataWidgetState::select(address)`: stores the address unclamped,
sets the scroll-to-selection flag, and resets the offset when deselecting. -/
def BinaryDataWidgetState.select (s : BinaryDataWidgetState)
    (address : Option Nat) : BinaryDataWidgetState :=
  match address with
  | none =>
    { s with selected_address := none,
             ensure_selected_in_view_on_next_render := true,
             offset_address := 0 }
  | some a =>
    { s with selected_address := some a,
             ensure_selected_in_view_on_next_render := true }

/-- `BinaryDataWidgetState::scroll_down(lines)` (the `src/lib.rs` snapshot:
no clamping, no return value). -/
def BinaryDataWidgetState.scroll_down (s : BinaryDataWidgetState)
    (lines : Nat) : BinaryDataWidgetState :=
  let per_row :=
    match s.last_render_positions with
    | some positions => positions.per_row
    | none => 8
  { s with offset_address :=
      satUsize (s.offset_address + satUsize (lines * per_row)) }

/-- `BinaryDataWidgetState::scroll_up(lines)` (the `src/lib.rs` snapshot). -/
def BinaryDataWidgetState.scroll_up (s : BinaryDataWidgetState)
    (lines : Nat) : BinaryDataWidgetState :=
  let per_row :=
    match s.last_render_positions with
    | some positions => positions.per_row
    | none => 8
  { s with offset_address :=
      s.offset_address - satUsize (lines * per_row) }

/-- State effects of `<BinaryDataWidget as StatefulWidget>::render` from
`src/lib.rs` (widget without a block, so the render area is the inner area;
`data_length` is `self.data.len()`).  Stores the freshly computed
`RenderPositions`, clamps offset and selection to the data range, repositions
the offset when the scroll-to-selection flag is set, and clears the flag.
The cell-drawing loop does not mutate the state and is omitted. -/
def renderState (area : Rect) (data_length : Nat)
    (state : BinaryDataWidgetState) : BinaryDataWidgetState :=
  match RenderPositions.new area data_length with
  | none => { state with last_render_positions := none }
  | some positions =>
    let offset_address := min state.offset_address (data_length - 1)
    let selected_address :=
      state.selected_address.map fun selected => min (data_length - 1) selected
    let available_height := area.height
    let start_line := offset_address / positions.per_row
    if state.ensure_selected_in_view_on_next_render then
      let start_line :=
        match selected_address with
        | none => start_line
        | some selected =>
          let selected_line := selected / positions.per_row
          if selected_line < start_line then selected_line
          else if satUsize (start_line + available_height) ≤ selected_line then
            satUsize (selected_line + 1) - available_height
          else start_line
      { state with
          last_render_positions := some positions,
          offset_address := satUsize (start_line * positions.per_row),
          selected_address := selected_address,
          ensure_selected_in_view_on_next_render := false }
    else
      { state with
          last_render_positions := some positions,
          offset_address := offset_address,
          selected_address := selected_address }

/-- Pairs-per-row bound used inside `RenderPositions::new`. -/
def pairsMaxOf (area : Rect) (data_length : Nat) : Nat :=
  (area.width - 2 - clog16 (data_length - 1)) / 7

/-- The `pairs_per_row` value chosen by `RenderPositions::new`. -/
def pairsOf (area : Rect) (data_length : Nat) : Nat :=
  pairs_per_row_of (pairsMaxOf area data_length)

/-- The `per_row` value chosen by `RenderPositions::new`. -/
def perRowOf (area : Rect) (data_length : Nat) : Nat :=
  sat16 (pairsOf area data_length * 2)

/-- The `available_data_lines` value chosen by `RenderPositions::new`. -/
def availOf (area : Rect) (data_length : Nat) : Nat :=
  (data_length + perRowOf area data_length - 1) / perRowOf area data_length

/-- The `offset_x_hex` value chosen by `RenderPositions::new`. -/
def oxHexOf (area : Rect) (data_length : Nat) : Nat :=
  sat16 (sat16 (area.x + clog16 (data_length - 1)) + 2)

/-- The `offset_x_char` value chosen by `RenderPositions::new`. -/
def oxCharOf (area : Rect) (data_length : Nat) : Nat :=
  sat16 (oxHexOf area data_length + sat16 (pairsOf area data_length * 5))

theorem new_def (area : Rect) (dl : Nat) :
    RenderPositions.new area dl =
      if area.width < 9 ∨ area.height < 1 ∨ dl = 0 then none
      else if pairsMaxOf area dl < 2 then none
      else some ⟨area, dl - 1, clog16 (dl - 1), perRowOf area dl,
                 availOf area dl, oxHexOf area dl, oxCharOf area dl⟩ := rfl

theorem new_elim {area : Rect} {dl : Nat} {g : RenderPositions}
    (h : RenderPositions.new area dl = some g) :
    9 ≤ area.width ∧ 1 ≤ area.height ∧ 1 ≤ dl ∧ 2 ≤ pairsMaxOf area dl ∧
    g = ⟨area, dl - 1, clog16 (dl - 1), perRowOf area dl, availOf area dl,
         oxHexOf area dl, oxCharOf area dl⟩ := by
  rw [new_def] at h
  split at h
  · exact absurd h (by simp)
  · next h1 =>
    split at h
    · exact absurd h (by simp)
    · next h2 =>
      push_neg at h1
      refine ⟨by omega, by omega, by omega, ?_, ?_⟩
      · exact Nat.not_lt.mp h2
      · exact (Option.some.inj h).symm

theorem sat16_eq_of_le {n : Nat} (h : n ≤ 65535) : sat16 n = n :=
  min_eq_left h

theorem sat16_le (n : Nat) : sat16 n ≤ 65535 :=
  min_le_right _ _

theorem satUsize_eq_of_le {n : Nat} (h : n ≤ USIZEMAX) : satUsize n = n :=
  min_eq_left h

theorem satUsize_le (n : Nat) : satUsize n ≤ USIZEMAX :=
  min_le_right _ _

theorem pairsLoopAux_succ (fuel m p : Nat) :
    pairsLoopAux (fuel + 1) m p =
      if sat16 (p * 2) ≤ m then pairsLoopAux fuel m (sat16 (p * 2)) else p :=
  rfl

theorem pairsLoopAux_ge :
    ∀ fuel m p, p ≤ 65535 → p ≤ pairsLoopAux fuel m p := by
  intro fuel
  induction fuel with
  | zero => intro m p _; exact Nat.le_refl p
  | succ fuel ih =>
    intro m p hp
    rw [pairsLoopAux_succ]
    split
    · calc p ≤ sat16 (p * 2) := le_min (by omega) hp
        _ ≤ pairsLoopAux fuel m (sat16 (p * 2)) := ih m _ (sat16_le _)
    · exact Nat.le_refl p

theorem pairsLoopAux_le :
    ∀ fuel m p, p ≤ m → pairsLoopAux fuel m p ≤ m := by
  intro fuel
  induction fuel with
  | zero => intro m p hp; exact hp
  | succ fuel ih =>
    intro m p hp
    rw [pairsLoopAux_succ]
    split
    · next hcond => exact ih m _ hcond
    · exact hp

theorem pairsLoopAux_pow :
    ∀ fuel m p, (∃ j, p = 2 ^ j) → p ≤ 16383 → m ≤ 16383 →
      ∃ k, pairsLoopAux fuel m p = 2 ^ k := by
  intro fuel
  induction fuel with
  | zero => intro m p hp _ _; exact hp
  | succ fuel ih =>
    intro m p hp hple hm
    rw [pairsLoopAux_succ]
    split
    · next hcond =>
      obtain ⟨j, rfl⟩ := hp
      have h2 : sat16 (2 ^ j * 2) = 2 ^ (j + 1) := by
        rw [sat16_eq_of_le (by omega)]
        ring
      rw [h2]
      rw [h2] at hcond
      exact ih m _ ⟨j + 1, rfl⟩ (by omega) hm
    · exact hp

theorem pairs_per_row_of_ge_two {m : Nat} (hm : 2 ≤ m) :
    2 ≤ pairs_per_row_of m := by
  unfold pairs_per_row_of
  rw [show (17 : Nat) = 16 + 1 from rfl, pairsLoopAux_succ]
  have h2 : sat16 (1 * 2) = 2 := by decide
  rw [h2, if_pos hm]
  exact pairsLoopAux_ge 16 m 2 (by omega)

theorem pairs_per_row_of_le {m : Nat} (hm : 1 ≤ m) :
    pairs_per_row_of m ≤ m := by
  unfold pairs_per_row_of
  exact pairsLoopAux_le 17 m 1 hm

theorem pairs_per_row_of_pow {m : Nat} (hm : m ≤ 16383) :
    ∃ k, pairs_per_row_of m = 2 ^ k := by
  unfold pairs_per_row_of
  exact pairsLoopAux_pow 17 m 1 ⟨0, rfl⟩ (by omega) hm

/-- Modelled from the spec (claim C3's comparison value): "the number of hex
digits needed to print the largest address" — repeated division by 16,
counting digits; every `Nat` has at least one digit. -/
def hexDigitsAux : Nat → Nat → Nat
  | 0, _ => 1
  | fuel + 1, b => if b < 16 then 1 else hexDigitsAux fuel (b / 16) + 1

/-- Number of hexadecimal digits of `b` (1 for `b = 0`). -/
def hexDigits (b : Nat) : Nat := hexDigitsAux 64 b

theorem pairsOf_ge_one (area : Rect) (dl : Nat) : 1 ≤ pairsOf area dl :=
  pairsLoopAux_ge 17 _ 1 (by omega)

theorem perRowOf_ge_two (area : Rect) (dl : Nat) : 2 ≤ perRowOf area dl := by
  have h1 : 1 ≤ pairsOf area dl := pairsOf_ge_one area dl
  have h2 : 2 ≤ pairsOf area dl * 2 := by omega
  unfold perRowOf sat16 U16MAX
  omega

theorem pairsMaxOf_le {area : Rect} (dl : Nat) (hw : area.width ≤ 65535) :
    pairsMaxOf area dl ≤ 9361 := by
  unfold pairsMaxOf
  omega

theorem pairsOf_le_max {area : Rect} {dl : Nat}
    (hmx : 1 ≤ pairsMaxOf area dl) : pairsOf area dl ≤ pairsMaxOf area dl :=
  pairs_per_row_of_le hmx

theorem perRowOf_eq {area : Rect} {dl : Nat} (hw : area.width ≤ 65535)
    (hmx : 1 ≤ pairsMaxOf area dl) :
    perRowOf area dl = pairsOf area dl * 2 := by
  have h1 := pairsOf_le_max hmx
  have h2 := pairsMaxOf_le dl hw
  exact sat16_eq_of_le (by omega)

/-- C4 (counterexample): at the claimed width-9 boundary with the smallest
valid data the geometry is `None`, not `Some` with `per_row = 2`. -/
theorem c4_counterexample :
    ¬ ∃ g : RenderPositions,
        RenderPositions.new ⟨0, 0, 9, 1⟩ 1 = some g ∧ g.per_row = 2 := by
  rintro ⟨g, hg, -⟩
  rw [show RenderPositions.new ⟨0, 0, 9, 1⟩ 1 = none from by decide] at hg
  exact Option.noConfusion hg

/-- C4 (amended): a region of width exactly 9 always yields `None`: width 9
passes the `width < 9` guard but leaves at most `7` columns of data width, so
`pairs_per_row_max = (9 - 2 - address_width) / 7 ≤ 1 < 2` and
`RenderPositions::new` rejects the region. -/
theorem c4_amended (x y h dl : Nat) :
    RenderPositions.new ⟨x, y, 9, h⟩ dl = none := by
  rw [new_def]
  split
  · rfl
  · have hlt : pairsMaxOf ⟨x, y, 9, h⟩ dl < 2 := by
      show (9 - 2 - clog16 (dl - 1)) / 7 < 2
      omega
    rw [if_pos hlt]

/-- C3 (counterexample): for `data_length = 1` the computed `address_width`
is `0` (the float path is `ceil (log16 0) = -inf` cast to `0`), not the
claimed minimum of `1 = hexDigits 0`. -/
theorem c3_counterexample :
    RenderPositions.new ⟨0, 0, 30, 5⟩ 1 =
      some ⟨⟨0, 0, 30, 5⟩, 0, 0, 8, 1, 2, 22⟩ ∧
    (⟨⟨0, 0, 30, 5⟩, 0, 0, 8, 1, 2, 22⟩ : RenderPositions).address_width = 0 ∧
    hexDigits (1 - 1) = 1 := by decide

set_option maxRecDepth 8192 in
/-- C3 (amended): restricted to the data lengths at which the source's f32
pipeline is determined independently of the library's rounding
(`data_length ≤ 256`: the cast to f32 is exact, `log(16, 16)` divides a
value by itself, and every other base-16 logarithm in range is far from an
integer), the computed `address_width` equals the number of hex digits of
`biggest_address = data_length - 1` except for `biggest_address ∈ {0, 1, 16}`
(data lengths 1, 2 and 17), where it is one digit less; in particular it is
`0`, not the claimed minimum `1`, for `data_length = 1`.  For larger data the
program's value depends on f32 rounding — past `2 ^ 24` the cast alone
collapses neighbouring addresses — and can fall below the digit count near
powers of 16. -/
theorem c3_amended (area : Rect) (dl : Nat) (g : RenderPositions)
    (hg : RenderPositions.new area dl = some g) (hdl : dl ≤ 256) :
    ((dl = 1 ∨ dl = 2 ∨ dl = 17) →
      g.address_width + 1 = hexDigits (dl - 1)) ∧
    (¬ (dl = 1 ∨ dl = 2 ∨ dl = 17) →
      g.address_width = hexDigits (dl - 1)) := by
  obtain ⟨-, -, hdl1, -, hgdef⟩ := new_elim hg
  have haw : g.address_width = clog16 (dl - 1) := by rw [hgdef]
  rw [haw]
  have key : ∀ d, d ≤ 256 → 1 ≤ d →
      ((d = 1 ∨ d = 2 ∨ d = 17) → clog16 (d - 1) + 1 = hexDigits (d - 1)) ∧
      (¬ (d = 1 ∨ d = 2 ∨ d = 17) → clog16 (d - 1) = hexDigits (d - 1)) := by
    decide
  exact key dl hdl hdl1

/-- C3 (witness): for `data_length = 100` (biggest address `0x63`, inside the
rounding-independent range and not a carve-out) the computed `address_width`
agrees with the hex-digit count 2. -/
theorem c3_witness :
    RenderPositions.new ⟨0, 0, 30, 5⟩ 100 =
      some ⟨⟨0, 0, 30, 5⟩, 99, 2, 4, 25, 4, 14⟩ ∧
    (⟨⟨0, 0, 30, 5⟩, 99, 2, 4, 25, 4, 14⟩ : RenderPositions).address_width =
      hexDigits (100 - 1) :=
  ⟨by decide, (c3_amended ⟨0, 0, 30, 5⟩ 100
    ⟨⟨0, 0, 30, 5⟩, 99, 2, 4, 25, 4, 14⟩ (by decide) (by decide)).2
    (by decide)⟩

/-- C6 (code evaluated at the failing input): with a last render of 10 bytes
in an 18x2 region (`per_row = 4`, `biggest_address = 9`) and
`offset_address = 9`, `scroll_down(1)` returns `false` and leaves the offset
at 9, although the unclamped target `9 + 1 * 4 = 13` differs — the clamp to
the last render's biggest address happens inside `scroll_down`, and the
function's own doc comment ("Always returns `true`") is violated. -/
theorem c6_scroll_down_at_bottom :
    (State.scroll_down
      ⟨false, RenderPositions.new ⟨0, 0, 18, 2⟩ 10, 9, none⟩ 1).2 = false ∧
    (State.scroll_down
      ⟨false, RenderPositions.new ⟨0, 0, 18, 2⟩ 10, 9, none⟩
      1).1.offset_address = 9 ∧
    satUsize (9 + satUsize (1 * (State.mk false
      (RenderPositions.new ⟨0, 0, 18, 2⟩ 10) 9 none).last_per_row)) = 13 := by
  decide

/-- C9 (counterexample): `scroll_down` does not merely adjust the offset by a
saturating `lines * per_row`: with `per_row = 4`, `biggest_address = 9` and
offset 0, `scroll_down(5)` sets the offset to the clamp value 9, while the
saturating adjustment alone would give 20. -/
theorem c9_counterexample :
    (State.scroll_down
      ⟨false, RenderPositions.new ⟨0, 0, 18, 2⟩ 10, 0, none⟩
      5).1.offset_address = 9 ∧
    satUsize (0 + satUsize (5 * (State.mk false
      (RenderPositions.new ⟨0, 0, 18, 2⟩ 10) 0 none).last_per_row)) = 20 := by
  decide

/-- C9 (amended): `scroll_up`/`scroll_down` never touch the selection, the
scroll-to-selection flag or the stored geometry; `scroll_up` adjusts the
offset by a saturating subtraction of `lines * per_row`, and `scroll_down` by
a saturating addition of `lines * per_row` additionally clamped to the last
render's biggest address (`usize::MAX` when no render happened yet). -/
theorem c9_amended (s : State) (lines : Nat) :
    (State.scroll_up s lines).1.selected_address = s.selected_address ∧
    (State.scroll_up s lines).1.ensure_selected_in_view_on_next_render =
      s.ensure_selected_in_view_on_next_render ∧
    (State.scroll_up s lines).1.last_render_positions =
      s.last_render_positions ∧
    (State.scroll_up s lines).1.offset_address =
      s.offset_address - satUsize (lines * s.last_per_row) ∧
    (State.scroll_down s lines).1.selected_address = s.selected_address ∧
    (State.scroll_down s lines).1.ensure_selected_in_view_on_next_render =
      s.ensure_selected_in_view_on_next_render ∧
    (State.scroll_down s lines).1.last_render_positions =
      s.last_render_positions ∧
    (State.scroll_down s lines).1.offset_address =
      min (satUsize (s.offset_address + satUsize (lines * s.last_per_row)))
        s.last_biggest_address := by
  obtain ⟨flag, last, off, sel⟩ := s
  exact ⟨rfl, rfl, rfl, rfl, rfl, rfl, rfl, rfl⟩

/-- C10: `State::clicked_address` is `None` exactly when no geometry was
stored by a render; when a geometry exists it returns `Some` for every
`(column, row)` — with no bounds check, so the result can exceed the
geometry's biggest address. -/
theorem c10_clicked_total :
    (∀ (s : State) (column row : Nat), s.last_render_positions = none →
        s.clicked_address column row = none) ∧
    (∀ (s : State) (g : RenderPositions) (column row : Nat),
        s.last_render_positions = some g →
        s.clicked_address column row =
          some (g.clicked_address s.offset_address column row)) ∧
    (∃ (s : State) (g : RenderPositions) (column row a : Nat),
        s.last_render_positions = some g ∧
        s.clicked_address column row = some a ∧ g.biggest_address < a) := by
  refine ⟨?_, ?_, ?_⟩
  · intro s column row h
    unfold State.clicked_address
    rw [h]
  · intro s g column row h
    unfold State.clicked_address
    rw [h]
  · exact ⟨⟨false, some ⟨⟨0, 0, 18, 2⟩, 9, 1, 4, 3, 3, 13⟩, 0, none⟩,
      ⟨⟨0, 0, 18, 2⟩, 9, 1, 4, 3, 3, 13⟩, 0, 5, 20, rfl, by decide, by decide⟩

/-- C10 (witness): a state that never rendered yields `None` for any click. -/
theorem c10_witness :
    State.clicked_address ⟨true, none, 7, some 3⟩ 123 456 = none :=
  c10_clicked_total.1 ⟨true, none, 7, some 3⟩ 123 456 rfl

/-- C7 (counterexample): for a representable `Rect` at the far right edge
(`x = 65535`) the saturating column arithmetic collapses both offsets to
65535, so `offset_x_char > offset_x_hex` fails on a `Some` geometry. -/
theorem c7_counterexample :
    RenderPositions.new ⟨65535, 0, 100, 1⟩ 3 =
      some ⟨⟨65535, 0, 100, 1⟩, 2, 1, 16, 1, 65535, 65535⟩ ∧
    (⟨⟨65535, 0, 100, 1⟩, 2, 1, 16, 1, 65535, 65535⟩ :
        RenderPositions).offset_x_char =
      (⟨⟨65535, 0, 100, 1⟩, 2, 1, 16, 1, 65535, 65535⟩ :
        RenderPositions).offset_x_hex := by
  decide

/-- C7 (amended): for every `u16`-representable width, a `Some` geometry has
`per_row` a power of two with `per_row ≥ 2`, and `offset_x_char >
offset_x_hex` holds whenever `offset_x_hex` itself did not saturate at the
`u16` maximum 65535. -/
theorem c7_amended (area : Rect) (dl : Nat) (g : RenderPositions)
    (hw : area.width ≤ 65535) (hg : RenderPositions.new area dl = some g) :
    (∃ k, g.per_row = 2 ^ k) ∧ 2 ≤ g.per_row ∧
    (g.offset_x_hex < 65535 → g.offset_x_hex < g.offset_x_char) := by
  obtain ⟨hw9, hh1, hdl1, hmx, hgdef⟩ := new_elim hg
  have hper : g.per_row = perRowOf area dl := by rw [hgdef]
  have hoxh : g.offset_x_hex = oxHexOf area dl := by rw [hgdef]
  have hoxc : g.offset_x_char = oxCharOf area dl := by rw [hgdef]
  rw [hper, hoxh, hoxc]
  have hpmax := pairsMaxOf_le dl hw
  refine ⟨?_, perRowOf_ge_two area dl, ?_⟩
  · obtain ⟨k, hk⟩ := pairs_per_row_of_pow (m := pairsMaxOf area dl) (by omega)
    refine ⟨k + 1, ?_⟩
    rw [perRowOf_eq hw (by omega)]
    show pairs_per_row_of (pairsMaxOf area dl) * 2 = 2 ^ (k + 1)
    rw [hk]
    ring
  · intro hlt
    have hp1 := pairsOf_ge_one area dl
    unfold oxCharOf sat16 U16MAX
    omega

/-- C7 (witness): a 20x3 region over 50 bytes gives `per_row = 4 = 2 ^ 2`
and hex block strictly left of the ASCII block. -/
theorem c7_witness :
    RenderPositions.new ⟨0, 0, 20, 3⟩ 50 =
      some ⟨⟨0, 0, 20, 3⟩, 49, 2, 4, 13, 4, 14⟩ ∧
    (∃ k, (⟨⟨0, 0, 20, 3⟩, 49, 2, 4, 13, 4, 14⟩ :
        RenderPositions).per_row = 2 ^ k) ∧
    2 ≤ (⟨⟨0, 0, 20, 3⟩, 49, 2, 4, 13, 4, 14⟩ : RenderPositions).per_row ∧
    (⟨⟨0, 0, 20, 3⟩, 49, 2, 4, 13, 4, 14⟩ :
        RenderPositions).offset_x_hex <
      (⟨⟨0, 0, 20, 3⟩, 49, 2, 4, 13, 4, 14⟩ : RenderPositions).offset_x_char :=
  have h := c7_amended ⟨0, 0, 20, 3⟩ 50 ⟨⟨0, 0, 20, 3⟩, 49, 2, 4, 13, 4, 14⟩
    (by decide) (by decide)
  ⟨by decide, h.1, h.2.1, h.2.2 (by decide)⟩

/-- C1 (counterexample): for a geometry computed at the right edge of the
`u16` coordinate space (`x = 65535`) the saturating column arithmetic folds
every cell onto column 65535, so clicking the forward-computed hex cell of
byte 1 on visible row 0 returns the row's first address instead of
`offset + 0 * per_row + 1`. -/
theorem c1_counterexample :
    RenderPositions.new ⟨65535, 0, 100, 5⟩ 100 =
      some ⟨⟨65535, 0, 100, 5⟩, 99, 2, 16, 7, 65535, 65535⟩ ∧
    (⟨⟨65535, 0, 100, 5⟩, 99, 2, 16, 7, 65535, 65535⟩ :
        RenderPositions).x_hex 1 = 65535 ∧
    (⟨⟨65535, 0, 100, 5⟩, 99, 2, 16, 7, 65535, 65535⟩ :
        RenderPositions).clicked_address 0
      ((⟨⟨65535, 0, 100, 5⟩, 99, 2, 16, 7, 65535, 65535⟩ :
        RenderPositions).x_hex 1) (0 + 0) = 0 ∧
    (0 : Nat) ≠ 0 + 0 * (⟨⟨65535, 0, 100, 5⟩, 99, 2, 16, 7, 65535, 65535⟩ :
        RenderPositions).per_row + 1 := by
  decide

/-- C1 (amended): the click inverse law holds for every geometry, byte index
and visible row whose forward coordinates do not saturate: if the column
arithmetic stays within `u16` (`offset_x_char + per_row ≤ 65536`, with a
`u16`-representable region) and the row/byte address stays within `usize`
(`off + r * per_row + per_row ≤ usize::MAX`), then clicking the hex cell or
the ASCII cell of byte `i` on visible row `r` returns exactly
`off + r * per_row + i`. -/
theorem c1_amended (area : Rect) (dl : Nat) (g : RenderPositions)
    (off i r : Nat)
    (hg : RenderPositions.new area dl = some g)
    (hw : area.width ≤ 65535)
    (hy : area.y + area.height ≤ 65536)
    (hi : i < g.per_row)
    (hr : r < area.height)
    (hcol : g.offset_x_char + g.per_row ≤ 65536)
    (hoff : off + r * g.per_row + g.per_row ≤ USIZEMAX) :
    g.clicked_address off (g.x_hex i) (area.y + r) =
      off + r * g.per_row + i ∧
    g.clicked_address off (g.x_char i) (area.y + r) =
      off + r * g.per_row + i := by
  obtain ⟨hw9, hh1, hdl1, hmx, hgdef⟩ := new_elim hg
  have hper : g.per_row = perRowOf area dl := by rw [hgdef]
  have hoxh : g.offset_x_hex = oxHexOf area dl := by rw [hgdef]
  have hoxc : g.offset_x_char = oxCharOf area dl := by rw [hgdef]
  have harea : g.inner_area = area := by rw [hgdef]
  rw [hper] at hi hoff
  rw [hoxc, hper] at hcol
  rw [hper]
  have hpmax : pairsMaxOf area dl ≤ 9361 := pairsMaxOf_le dl hw
  have hp2 : 2 ≤ pairsOf area dl := pairs_per_row_of_ge_two hmx
  have hple : pairsOf area dl ≤ pairsMaxOf area dl := pairsOf_le_max (by omega)
  have hPRb : perRowOf area dl = pairsOf area dl * 2 := perRowOf_eq hw (by omega)
  have h5e : sat16 (pairsOf area dl * 5) = pairsOf area dl * 5 :=
    sat16_eq_of_le (by omega)
  have hOXC2 : oxCharOf area dl =
      min (oxHexOf area dl + pairsOf area dl * 5) 65535 := by
    rw [show oxCharOf area dl =
      sat16 (oxHexOf area dl + sat16 (pairsOf area dl * 5)) from rfl, h5e]
    rfl
  have hoxhle : oxHexOf area dl ≤ 65535 := by
    rw [show oxHexOf area dl =
      sat16 (sat16 (area.x + clog16 (dl - 1)) + 2) from rfl]
    exact sat16_le _
  have hcolb : oxHexOf area dl + pairsOf area dl * 5 + pairsOf area dl * 2 ≤
      65536 := by omega
  have hoxce : oxCharOf area dl = oxHexOf area dl + pairsOf area dl * 5 := by
    omega
  have f1 : satUsize (r * perRowOf area dl) = r * perRowOf area dl :=
    satUsize_eq_of_le (by omega)
  have f2 : satUsize (off + r * perRowOf area dl) =
      off + r * perRowOf area dl := satUsize_eq_of_le (by omega)
  constructor
  · have e1 : sat16 (i * 2) = i * 2 := sat16_eq_of_le (by omega)
    have e2 : sat16 (oxHexOf area dl + i * 2) = oxHexOf area dl + i * 2 :=
      sat16_eq_of_le (by omega)
    have e3 : sat16 (oxHexOf area dl + i * 2 + i / 2) =
        oxHexOf area dl + i * 2 + i / 2 := sat16_eq_of_le (by omega)
    simp only [RenderPositions.clicked_address, RenderPositions.x_hex,
      Rect.top, harea, hper, hoxh, hoxc, Nat.add_sub_cancel_left,
      e1, e2, e3, f1, f2]
    rcases Nat.eq_zero_or_pos i with rfl | hi1
    · rw [if_pos (by omega)]
      omega
    · rw [if_neg (by omega), if_pos (by omega)]
      have hdiff : oxHexOf area dl + i * 2 + i / 2 - oxHexOf area dl =
          i * 2 + i / 2 := by omega
      rw [hdiff]
      have hidx : (i * 2 + i / 2 - (i * 2 + i / 2) / 5) / 2 = i := by omega
      rw [hidx]
      exact satUsize_eq_of_le (by omega)
  · have e4 : sat16 (oxCharOf area dl + i) = oxCharOf area dl + i :=
      sat16_eq_of_le (by omega)
    simp only [RenderPositions.clicked_address, RenderPositions.x_char,
      Rect.top, harea, hper, hoxh, hoxc, Nat.add_sub_cancel_left, e4, f1, f2]
    rw [if_neg (by omega), if_neg (by omega)]
    have hmin : min i (perRowOf area dl - 1) = i := by omega
    rw [hmin]
    exact satUsize_eq_of_le (by omega)

theorem per_row_ge_two {area : Rect} {dl : Nat} {g : RenderPositions}
    (hg : RenderPositions.new area dl = some g) : 2 ≤ g.per_row := by
  obtain ⟨-, -, -, -, hgdef⟩ := new_elim hg
  rw [hgdef]
  exact perRowOf_ge_two area dl

theorem renderState_of_flag_false {area : Rect} {dl : Nat}
    {s : BinaryDataWidgetState} {g : RenderPositions}
    (hg : RenderPositions.new area dl = some g)
    (hfl : s.ensure_selected_in_view_on_next_render = false) :
    renderState area dl s =
      { s with last_render_positions := some g,
               offset_address := min s.offset_address (dl - 1),
               selected_address :=
                 s.selected_address.map fun selected => min (dl - 1) selected }
    := by
  obtain ⟨flag, last, o, sel⟩ := s
  cases flag
  · simp only [renderState, hg]
    rw [if_neg Bool.false_ne_true]
  · exact Bool.noConfusion hfl

theorem renderState_flag {area : Rect} {dl : Nat} {s : BinaryDataWidgetState}
    {g : RenderPositions} (hg : RenderPositions.new area dl = some g) :
    (renderState area dl s).ensure_selected_in_view_on_next_render = false := by
  obtain ⟨flag, last, o, sel⟩ := s
  cases flag
  · rw [renderState_of_flag_false hg rfl]
  · simp only [renderState, hg, if_true]

theorem renderState_last {area : Rect} {dl : Nat} {s : BinaryDataWidgetState}
    {g : RenderPositions} (hg : RenderPositions.new area dl = some g) :
    (renderState area dl s).last_render_positions = some g := by
  obtain ⟨flag, last, o, sel⟩ := s
  cases flag
  · rw [renderState_of_flag_false hg rfl]
  · simp only [renderState, hg, if_true]

theorem renderState_selected {area : Rect} {dl : Nat}
    {s : BinaryDataWidgetState} {g : RenderPositions}
    (hg : RenderPositions.new area dl = some g) :
    (renderState area dl s).selected_address =
      s.selected_address.map fun selected => min (dl - 1) selected := by
  obtain ⟨flag, last, o, sel⟩ := s
  cases flag
  · rw [renderState_of_flag_false hg rfl]
  · simp only [renderState, hg, if_true]

theorem renderState_offset_le {area : Rect} {dl : Nat}
    {s : BinaryDataWidgetState} {g : RenderPositions}
    (hg : RenderPositions.new area dl = some g) :
    (renderState area dl s).offset_address ≤ dl - 1 := by
  obtain ⟨hw9, hh1, hdl1, hmx, -⟩ := new_elim hg
  obtain ⟨flag, last, o, sel⟩ := s
  cases flag
  · rw [renderState_of_flag_false hg rfl]
    exact min_le_right _ _
  · simp only [renderState, hg, if_true]
    cases sel with
    | none =>
      simp only [Option.map_none']
      exact le_trans (min_le_left _ _)
        (le_trans (Nat.div_mul_le_self _ _) (min_le_right _ _))
    | some v =>
      simp only [Option.map_some']
      have hstle : (o ⊓ (dl - 1)) / g.per_row * g.per_row ≤ dl - 1 :=
        le_trans (Nat.div_mul_le_self _ _) (min_le_right _ _)
      have hslle : ((dl - 1) ⊓ v) / g.per_row * g.per_row ≤ dl - 1 :=
        le_trans (Nat.div_mul_le_self _ _) (min_le_left _ _)
      split_ifs with h1 h2
      · exact le_trans (min_le_left _ _) hslle
      · refine le_trans (min_le_left _ _) (le_trans
          (Nat.mul_le_mul_right _ ?_) hslle)
        have hm : satUsize (((dl - 1) ⊓ v) / g.per_row + 1) ≤
            ((dl - 1) ⊓ v) / g.per_row + 1 := min_le_left _ _
        omega
      · exact le_trans (min_le_left _ _) hstle

/-- C1 (witness): 18x2 region over 10 bytes (`per_row = 4`): clicking the hex
cell and the ASCII cell of byte 3 on visible row 1 both return
`0 + 1 * 4 + 3 = 7`. -/
theorem c1_witness :
    RenderPositions.new ⟨0, 0, 18, 2⟩ 10 =
      some ⟨⟨0, 0, 18, 2⟩, 9, 1, 4, 3, 3, 13⟩ ∧
    (⟨⟨0, 0, 18, 2⟩, 9, 1, 4, 3, 3, 13⟩ : RenderPositions).clicked_address 0
        ((⟨⟨0, 0, 18, 2⟩, 9, 1, 4, 3, 3, 13⟩ : RenderPositions).x_hex 3)
        (0 + 1) =
      0 + 1 * (⟨⟨0, 0, 18, 2⟩, 9, 1, 4, 3, 3, 13⟩ : RenderPositions).per_row +
        3 ∧
    (⟨⟨0, 0, 18, 2⟩, 9, 1, 4, 3, 3, 13⟩ : RenderPositions).clicked_address 0
        ((⟨⟨0, 0, 18, 2⟩, 9, 1, 4, 3, 3, 13⟩ : RenderPositions).x_char 3)
        (0 + 1) =
      0 + 1 * (⟨⟨0, 0, 18, 2⟩, 9, 1, 4, 3, 3, 13⟩ : RenderPositions).per_row +
        3 := by
  have h := c1_amended ⟨0, 0, 18, 2⟩ 10 ⟨⟨0, 0, 18, 2⟩, 9, 1, 4, 3, 3, 13⟩
    0 3 1 (by decide) (by decide) (by decide) (by decide) (by decide)
    (by decide) (by decide)
  exact ⟨by decide, h.1, h.2⟩

/-- C2 (counterexample): selecting the out-of-range address 200 in a 100-byte
buffer and rendering in an 18x2 region scrolls to the clamped selection 99
(row 24, offset 92), not to row `200 / 4 = 50` as the claim states. -/
theorem c2_counterexample :
    RenderPositions.new ⟨0, 0, 18, 2⟩ 100 =
      some ⟨⟨0, 0, 18, 2⟩, 99, 2, 4, 25, 4, 14⟩ ∧
    (renderState ⟨0, 0, 18, 2⟩ 100
        (BinaryDataWidgetState.new.select (some 200))).offset_address = 92 ∧
    ¬ ((renderState ⟨0, 0, 18, 2⟩ 100
          (BinaryDataWidgetState.new.select (some 200))).offset_address /
          (⟨⟨0, 0, 18, 2⟩, 99, 2, 4, 25, 4, 14⟩ : RenderPositions).per_row ≤
        200 / (⟨⟨0, 0, 18, 2⟩, 99, 2, 4, 25, 4, 14⟩ :
          RenderPositions).per_row ∧
        200 / (⟨⟨0, 0, 18, 2⟩, 99, 2, 4, 25, 4, 14⟩ :
          RenderPositions).per_row <
          (renderState ⟨0, 0, 18, 2⟩ 100
            (BinaryDataWidgetState.new.select (some 200))).offset_address /
            (⟨⟨0, 0, 18, 2⟩, 99, 2, 4, 25, 4, 14⟩ : RenderPositions).per_row +
            (⟨0, 0, 18, 2⟩ : Rect).height) := by
  decide

/-- C2 (amended): after `select(Some(a))` with an in-range address
`a ≤ data_length - 1`, one render with a `Some` geometry clears the
scroll-to-selection flag and leaves the row `a / per_row` within the window
`[offset / per_row, offset / per_row + height)`; for out-of-range `a` the
window contains the clamped selection `data_length - 1` instead. -/
theorem c2_amended (s : BinaryDataWidgetState) (area : Rect) (dl a : Nat)
    (g : RenderPositions)
    (hg : RenderPositions.new area dl = some g)
    (ha : a ≤ dl - 1) (hdl : dl ≤ USIZEMAX) (hh : area.height ≤ 65535) :
    (renderState area dl
        (s.select (some a))).ensure_selected_in_view_on_next_render = false ∧
    (renderState area dl (s.select (some a))).offset_address / g.per_row ≤
      a / g.per_row ∧
    a / g.per_row <
      (renderState area dl (s.select (some a))).offset_address / g.per_row +
        area.height := by
  obtain ⟨hw9, hh1, hdl1, hmx, hgdef⟩ := new_elim hg
  have hper2 : 2 ≤ g.per_row := per_row_ge_two hg
  obtain ⟨flag, last, o, sel⟩ := s
  rw [show BinaryDataWidgetState.select ⟨flag, last, o, sel⟩ (some a) =
      ⟨true, last, o, some a⟩ from rfl]
  simp only [renderState, hg, if_true, Option.map_some', min_eq_right ha]
  refine ⟨trivial, ?_⟩
  have hdlM : dl - 1 ≤ USIZEMAX := le_trans (Nat.sub_le dl 1) hdl
  have hstle : (o ⊓ (dl - 1)) / g.per_row * g.per_row ≤ dl - 1 :=
    le_trans (Nat.div_mul_le_self _ _) (min_le_right _ _)
  have hslle : a / g.per_row * g.per_row ≤ dl - 1 :=
    le_trans (Nat.div_mul_le_self _ _) ha
  have hsldl : a / g.per_row ≤ dl - 1 := le_trans (Nat.div_le_self a _) ha
  have main : ∀ start, start * g.per_row ≤ dl - 1 →
      satUsize (start * g.per_row) / g.per_row = start := by
    intro start hb
    rw [satUsize_eq_of_le (le_trans hb hdlM)]
    exact Nat.mul_div_left start (by omega)
  split_ifs with h1 h2
  · rw [main _ hslle]
    omega
  · have h2st : (o ⊓ (dl - 1)) / g.per_row * 2 ≤
        (o ⊓ (dl - 1)) / g.per_row * g.per_row :=
      Nat.mul_le_mul_left _ hper2
    have hstH : (o ⊓ (dl - 1)) / g.per_row + area.height ≤ USIZEMAX := by
      simp only [USIZEMAX] at hdl ⊢
      omega
    rw [satUsize_eq_of_le hstH] at h2
    have hsl1 : a / g.per_row + 1 ≤ USIZEMAX := by
      simp only [USIZEMAX] at hdl ⊢
      omega
    rw [satUsize_eq_of_le hsl1]
    have hb : (a / g.per_row + 1 - area.height) * g.per_row ≤ dl - 1 :=
      le_trans (Nat.mul_le_mul_right _ (by omega)) hslle
    rw [main _ hb]
    constructor
    · omega
    · omega
  · have h2st : (o ⊓ (dl - 1)) / g.per_row * 2 ≤
        (o ⊓ (dl - 1)) / g.per_row * g.per_row :=
      Nat.mul_le_mul_left _ hper2
    have hstH : (o ⊓ (dl - 1)) / g.per_row + area.height ≤ USIZEMAX := by
      simp only [USIZEMAX] at hdl ⊢
      omega
    rw [satUsize_eq_of_le hstH] at h2
    rw [main _ hstle]
    omega

/-- C2 (witness): selecting address 9 in a 10-byte buffer and rendering in an
18x2 region (`per_row = 4`, rows 0..2) clears the flag and shows row
`9 / 4 = 2` inside the two-row window. -/
theorem c2_witness :
    RenderPositions.new ⟨0, 0, 18, 2⟩ 10 =
      some ⟨⟨0, 0, 18, 2⟩, 9, 1, 4, 3, 3, 13⟩ ∧
    ((renderState ⟨0, 0, 18, 2⟩ 10
        (BinaryDataWidgetState.new.select
          (some 9))).ensure_selected_in_view_on_next_render = false ∧
    (renderState ⟨0, 0, 18, 2⟩ 10
        (BinaryDataWidgetState.new.select (some 9))).offset_address /
        (⟨⟨0, 0, 18, 2⟩, 9, 1, 4, 3, 3, 13⟩ : RenderPositions).per_row ≤
      9 / (⟨⟨0, 0, 18, 2⟩, 9, 1, 4, 3, 3, 13⟩ : RenderPositions).per_row ∧
    9 / (⟨⟨0, 0, 18, 2⟩, 9, 1, 4, 3, 3, 13⟩ : RenderPositions).per_row <
      (renderState ⟨0, 0, 18, 2⟩ 10
          (BinaryDataWidgetState.new.select (some 9))).offset_address /
          (⟨⟨0, 0, 18, 2⟩, 9, 1, 4, 3, 3, 13⟩ : RenderPositions).per_row +
        (⟨0, 0, 18, 2⟩ : Rect).height) :=
  ⟨by decide, c2_amended BinaryDataWidgetState.new ⟨0, 0, 18, 2⟩ 10 9
    ⟨⟨0, 0, 18, 2⟩, 9, 1, 4, 3, 3, 13⟩ (by decide) (by decide) (by decide)
    (by decide)⟩

/-- C5 (counterexample): render a 10-byte buffer in an 18x2 region
(`per_row = 4`), scroll down 3 lines (offset 12), render again with the flag
unset: the offset is clamped to `data_length - 1 = 9`, which is not a
multiple of `per_row = 4`. -/
theorem c5_counterexample :
    RenderPositions.new ⟨0, 0, 18, 2⟩ 10 =
      some ⟨⟨0, 0, 18, 2⟩, 9, 1, 4, 3, 3, 13⟩ ∧
    (renderState ⟨0, 0, 18, 2⟩ 10
        ((renderState ⟨0, 0, 18, 2⟩ 10
          BinaryDataWidgetState.new).scroll_down 3)).offset_address = 9 ∧
    ¬ ((⟨⟨0, 0, 18, 2⟩, 9, 1, 4, 3, 3, 13⟩ : RenderPositions).per_row ∣
        (renderState ⟨0, 0, 18, 2⟩ 10
          ((renderState ⟨0, 0, 18, 2⟩ 10
            BinaryDataWidgetState.new).scroll_down 3)).offset_address) := by
  decide

/-- C5 (amended): after a render that produced a geometry, the offset is a
multiple of `per_row` when the scroll-to-selection flag was pending (the
offset is recomputed as `start_line * per_row`); when the flag was not
pending the offset is only clamped to `min(offset, data_length - 1)`, which
need not be a multiple of `per_row`. -/
theorem c5_amended (area : Rect) (dl : Nat) (s : BinaryDataWidgetState)
    (g : RenderPositions)
    (hg : RenderPositions.new area dl = some g) (hdl : dl ≤ USIZEMAX) :
    (s.ensure_selected_in_view_on_next_render = true →
      g.per_row ∣ (renderState area dl s).offset_address) ∧
    (s.ensure_selected_in_view_on_next_render = false →
      (renderState area dl s).offset_address =
        min s.offset_address (dl - 1)) := by
  obtain ⟨hw9, hh1, hdl1, hmx, hgdef⟩ := new_elim hg
  have hdlM : dl - 1 ≤ USIZEMAX := le_trans (Nat.sub_le dl 1) hdl
  obtain ⟨flag, last, o, sel⟩ := s
  constructor
  · intro hfl
    cases flag
    · exact Bool.noConfusion hfl
    · simp only [renderState, hg, if_true]
      cases sel with
      | none =>
        simp only [Option.map_none']
        rw [satUsize_eq_of_le (le_trans
          (le_trans (Nat.div_mul_le_self _ _) (min_le_right _ _)) hdlM)]
        exact dvd_mul_left _ _
      | some v =>
        simp only [Option.map_some']
        have hstle : (o ⊓ (dl - 1)) / g.per_row * g.per_row ≤ dl - 1 :=
          le_trans (Nat.div_mul_le_self _ _) (min_le_right _ _)
        have hslle : ((dl - 1) ⊓ v) / g.per_row * g.per_row ≤ dl - 1 :=
          le_trans (Nat.div_mul_le_self _ _) (min_le_left _ _)
        split_ifs with h1 h2
        · rw [satUsize_eq_of_le (le_trans hslle hdlM)]
          exact dvd_mul_left _ _
        · have hm : satUsize (((dl - 1) ⊓ v) / g.per_row + 1) ≤
              ((dl - 1) ⊓ v) / g.per_row + 1 := min_le_left _ _
          have hb : (satUsize (((dl - 1) ⊓ v) / g.per_row + 1) -
              area.height) * g.per_row ≤ dl - 1 :=
            le_trans (Nat.mul_le_mul_right _ (by omega)) hslle
          rw [satUsize_eq_of_le (le_trans hb hdlM)]
          exact dvd_mul_left _ _
        · rw [satUsize_eq_of_le (le_trans hstle hdlM)]
          exact dvd_mul_left _ _
  · intro hfl
    cases flag
    · rw [renderState_of_flag_false hg rfl]
    · exact Bool.noConfusion hfl

/-- C5 (witness): rendering with a pending flag and selection 7 in a 10-byte
buffer in an 18x2 region yields offset 4, a multiple of `per_row = 4`. -/
theorem c5_witness :
    RenderPositions.new ⟨0, 0, 18, 2⟩ 10 =
      some ⟨⟨0, 0, 18, 2⟩, 9, 1, 4, 3, 3, 13⟩ ∧
    (⟨⟨0, 0, 18, 2⟩, 9, 1, 4, 3, 3, 13⟩ : RenderPositions).per_row ∣
      (renderState ⟨0, 0, 18, 2⟩ 10 ⟨true, none, 5, some 7⟩).offset_address :=
  ⟨by decide, (c5_amended ⟨0, 0, 18, 2⟩ 10 ⟨true, none, 5, some 7⟩
    ⟨⟨0, 0, 18, 2⟩, 9, 1, 4, 3, 3, 13⟩ (by decide) (by decide)).1 rfl⟩

/-- C8: rendering twice with the same region and data length, with no
operations in between, leaves the state after the second render identical to
the state after the first: the clamps and the scroll-to-selection adjustment
are idempotent, and the flag is already cleared after the first render. -/
theorem c8_render_idempotent (area : Rect) (dl : Nat)
    (s : BinaryDataWidgetState) :
    renderState area dl (renderState area dl s) = renderState area dl s := by
  cases hnew : RenderPositions.new area dl with
  | none =>
    obtain ⟨flag, last, o, sel⟩ := s
    simp only [renderState, hnew]
  | some g =>
    have hl := renderState_last (s := s) hnew
    have hf := renderState_flag (s := s) hnew
    have ho := renderState_offset_le (s := s) hnew
    have hs := renderState_selected (s := s) hnew
    rw [renderState_of_flag_false hnew hf]
    have hss : ((renderState area dl s).selected_address.map
        fun selected => min (dl - 1) selected) =
        (renderState area dl s).selected_address := by
      rw [hs]
      cases sel : s.selected_address with
      | none => rfl
      | some v =>
        simp only [Option.map_some']
        congr 1
        omega
    have hmin : min (renderState area dl s).offset_address (dl - 1) =
        (renderState area dl s).offset_address := min_eq_left ho
    rw [hmin, hss, ← hl]
